import Mathlib

/-!
Verification development for the Mustang Sqlite3 engine
(`mustang/engine/sqlite.py`).

The engine translates model/field descriptors into SQL statements and
marshals rows back into model instances.  We embed:

* the Python values that flow through the engine (`Value`),
* the serialization library used for values whose type is not directly
  representable in the store (`pickleDumps` / `pickleLoads`; the real code uses
  the standard-library serializer, which we model as an injective,
  executable encoder with a matching decoder),
* the field/model descriptors (`Field`, `Model`),
* the engine operations (`init`, `create_table_for`, `get_instance`,
  `create_instance`, `update_instance`, `delete_instance`) together with
  a semantic model of what the generated SQL statements do on a table
  held as a list of rows.
-/

namespace Mustang

/-- A Python value as it flows through the engine: integers, strings,
byte strings, the null value, and (as a representative of values whose
type the store cannot represent directly) lists of strings. -/
inductive Value where
  | vint (n : Int)
  | vtext (s : String)
  | vblob (b : List Nat)
  | vnull
  | vlist (xs : List String)
deriving DecidableEq

/-- Length-prefixed encoding of a string used by the serializer model. -/
def encStr (s : String) : List Nat :=
  s.data.length :: s.data.map Char.toNat

/-- Model of the serializer used for values whose declared type is not
directly representable in the store (the real engine uses the Python
standard-library serializer).  Injective by construction. -/
def pickleDumps : Value → List Nat
  | .vint n => 0 :: n.toNat :: [(-n).toNat]
  | .vtext s => 1 :: encStr s
  | .vblob b => 2 :: b.length :: b
  | .vnull => [3]
  | .vlist xs => 4 :: xs.length :: (xs.map encStr).flatten

/-- Decode one length-prefixed string, returning the remainder. -/
def decStr : List Nat → Option (String × List Nat)
  | [] => none
  | n :: rest =>
    if n ≤ rest.length then
      some (⟨(rest.take n).map Char.ofNat⟩, rest.drop n)
    else none

/-- Decode `n` length-prefixed strings, returning the remainder. -/
def decStrs : Nat → List Nat → Option (List String × List Nat)
  | 0, rest => some ([], rest)
  | n + 1, rest =>
    match decStr rest with
    | some (s, rest1) =>
      match decStrs n rest1 with
      | some (ss, rest2) => some (s :: ss, rest2)
      | none => none
    | none => none

/-- Model of deserialization (`loads`): inverse of `pickleDumps` on valid
payloads, failure (`none`) on anything malformed. -/
def pickleLoads (b : List Nat) : Option Value :=
  match b with
  | 0 :: a :: b :: rest =>
    if rest = [] then some (.vint ((a : Int) - (b : Int))) else none
  | 1 :: rest =>
    match decStr rest with
    | some (s, []) => some (.vtext s)
    | _ => none
  | 2 :: n :: rest => if n = rest.length then some (.vblob rest) else none
  | 3 :: rest => if rest = [] then some .vnull else none
  | 4 :: n :: rest =>
    match decStrs n rest with
    | some (ss, []) => some (.vlist ss)
    | _ => none
  | _ => none

/-- The declared type of a field (`field.field_type` is a Python type
object; `tother` stands for any type outside the engine's mapping, such
as `list`). -/
inductive FieldType where
  | tint
  | tfloat
  | tstr
  | tbytes
  | tdatetime
  | tdate
  | tother
deriving DecidableEq

/-- A field descriptor (`mustang.schema.field.Field`): name, declared
type, primary-key flag, store-generated flag, default flag. -/
structure Field where
  name : String
  field_type : FieldType
  primary_key : Bool
  set_by_database : Bool
  has_default : Bool
deriving DecidableEq

/-- A model class: its Python `__name__`, optional `_alt_name`, and its
field descriptors (`_fields.values()`) in declaration order. -/
structure Model where
  pyName : String
  alt_name : Option String
  fields : List Field
deriving DecidableEq

/-- `model._alt_name or model.__name__.lower()` (Python `or`: an empty
or absent alias falls back to the lowercased class name). -/
def tableName (m : Model) : String :=
  match m.alt_name with
  | some s => if s = "" then m.pyName.toLower else s
  | none => m.pyName.toLower

/-- The `SQL_TYPES` dictionary: `.get` misses return `none` (callers
supply the `"BLOB"` default). -/
def SQL_TYPES : FieldType → Option String
  | .tint => some "INTEGER"
  | .tfloat => some "REAL"
  | .tstr => some "TEXT"
  | .tbytes => some "BLOB"
  | .tdatetime => some "TIMESTAMP"
  | .tdate => some "DATE"
  | .tother => none

/-- The loop body of `create_table_for`: one column definition per
field, built exactly as in the source (type lookup with `"BLOB"`
default, then `PRIMARY KEY` / `AUTOINCREMENT`, then `NOT NULL`). -/
def sqlFieldFor (field : Field) : String :=
  let sql_type := (SQL_TYPES field.field_type).getD "BLOB"
  let sql_field := field.name ++ " " ++ sql_type
  let sql_field :=
    if field.primary_key then
      let withPk := sql_field ++ " PRIMARY KEY"
      if field.field_type = .tint then withPk ++ " AUTOINCREMENT" else withPk
    else sql_field
  if !field.has_default then sql_field ++ " NOT NULL" else sql_field

/-- The `CREATE_TABLE` template with its two placeholders filled in. -/
def CREATE_TABLE (table_name fields : String) : String :=
  "CREATE TABLE IF NOT EXISTS " ++ table_name ++ " (\n    " ++ fields ++ "\n);"

/-- `create_table_for`: the DDL text the engine sends for a model. -/
def create_table_for (model : Model) : String :=
  CREATE_TABLE (tableName model) (String.intercalate ", " (model.fields.map sqlFieldFor))

/-- Modelled from the spec: the expected column type mapping
(integer→INTEGER, real→REAL, text→TEXT, binary→BLOB,
timestamp→TIMESTAMP, date→DATE; anything else→BLOB). -/
def specColumnType : FieldType → String
  | .tint => "INTEGER"
  | .tfloat => "REAL"
  | .tstr => "TEXT"
  | .tbytes => "BLOB"
  | .tdatetime => "TIMESTAMP"
  | .tdate => "DATE"
  | .tother => "BLOB"

/-- Modelled from the spec: the expected column definition
`<name> <TYPE>[ PRIMARY KEY[ AUTOINCREMENT]][ NOT NULL]`, with
`AUTOINCREMENT` exactly for integer primary keys and `NOT NULL` exactly
for fields with no declared default. -/
def specColumnDef (f : Field) : String :=
  f.name ++ " " ++ specColumnType f.field_type ++
    (if f.primary_key then
      " PRIMARY KEY" ++ (if f.field_type = .tint then " AUTOINCREMENT" else "")
    else "") ++
    (if f.has_default then "" else " NOT NULL")

/-- Truthiness of a Python `Path` object: `PurePath` defines no boolean
override, so any `Path` — in particular the result of
`file_name.absolute()` — is truthy. -/
def pathTruthy (_p : String) : Bool := true

/-- Whether a path string is absolute (starts with the separator). -/
def isAbsolutePath (p : String) : Bool :=
  match p.data with
  | [] => false
  | c :: _ => decide (c = '/')

/-- `Path.absolute()`: prefix the working directory when relative. -/
def absolutePath (cwd p : String) : String :=
  if isAbsolutePath p then p else cwd ++ "/" ++ p

/-- `Path.resolve()` as relevant here: produce an absolute path. -/
def resolvePath (cwd p : String) : String :=
  if isAbsolutePath p then p else cwd ++ "/" ++ p

/-- The state `init` leaves behind: the stored `self.file_name`, the
stored `self.memory` flag, and the string passed to the driver
connect call. -/
structure InitResult where
  file_name : Option String
  memory : Bool
  sql_file_name : String
deriving DecidableEq

/-- Embedding of `Sqlite3Engine.init`.  A `str` argument is converted
to a `Path` (both are a `String` here, `none` is Python `None`); the
`assert isinstance(file_name, pathlib.Path)` failure is the error case,
reached before any connection is opened.  The source tests
`if file_name.absolute():`, whose result is a `Path` object and hence
always truthy, so the `resolve()` branch is dead code. -/
def init (cwd : String) (file_name : Option String) (memory : Bool) :
    Except String InitResult :=
  let stored := if !memory then file_name else none
  if memory then
    Except.ok { file_name := stored, memory := memory, sql_file_name := ":memory:" }
  else
    match file_name with
    | none => Except.error "AssertionError"
    | some p =>
      let sql_file_name :=
        if pathTruthy (absolutePath cwd p) then p else resolvePath cwd p
      Except.ok { file_name := some p, memory := memory, sql_file_name := sql_file_name }

/-- A hydrated model instance: field name to value in field order, plus
the `_is_deleted` flag. -/
structure Instance where
  data : List (String × Value)
  is_deleted : Bool
deriving DecidableEq

/-- Index of the first field with the given name (how the store resolves
a column name against the table built from the model). -/
def colIdx (name : String) : List Field → Option Nat
  | [] => none
  | f :: fs => if f.name = name then some 0 else (colIdx name fs).map (· + 1)

def columnIndex (model : Model) (name : String) : Option Nat :=
  colIdx name model.fields

/-- SQL equality used in `WHERE` comparisons: `NULL` compares equal to
nothing (not even itself). -/
def sqlEq (a b : Value) : Bool :=
  match a, b with
  | .vnull, _ => false
  | _, .vnull => false
  | a, b => decide (a = b)

/-- One `<col>=?` filter evaluated on a row. -/
def filterMatches (model : Model) (row : List Value) (f : Field) (v : Value) : Bool :=
  match columnIndex model f.name with
  | some i =>
    match row[i]? with
    | some w => sqlEq w v
    | none => false
  | none => false

/-- The conjunction of all equality filters on a row. -/
def rowMatchesAll (model : Model) (filters : List (Field × Value)) (row : List Value) : Bool :=
  filters.all fun fv => filterMatches model row fv.1 fv.2

/-- Every filter names an existing column (otherwise the driver raises
an unknown-column error). -/
def filtersValid (model : Model) (filters : List (Field × Value)) : Bool :=
  filters.all fun fv => (columnIndex model fv.1.name).isSome

/-- The column-name list built in `get_instance` (lines 189–192): the
model's fields in declaration order. -/
def selectFieldNames (model : Model) : List String :=
  model.fields.map Field.name

/-- Python `str.join` on a list of strings. -/
def joinSep (sep : String) : List String → String
  | [] => ""
  | [x] => x
  | x :: y :: xs => x ++ sep ++ joinSep sep (y :: xs)

def selectColumns (model : Model) : String :=
  joinSep ", " (selectFieldNames model)

/-- The `" AND ".join(sql_fields)` filter clause of `get_instance`. -/
def filtersClause (filters : List (Field × Value)) : String :=
  joinSep " AND " (filters.map fun fv => fv.1.name ++ "=?")

/-- The `SELECT_QUERY` template with its placeholders filled in. -/
def SELECT_QUERY (table_name fields filters : String) : String :=
  "SELECT " ++ fields ++ " FROM " ++ table_name ++ "\nWHERE " ++ filters ++ ";"

/-- The per-value conversion step of hydration (lines 209–212): a byte
string stored for a field whose declared type is not `bytes` is
deserialized; anything else is kept as-is. -/
def hydrateValue (field : Field) (value : Value) : Except String Value :=
  match value with
  | .vblob b =>
    if field.field_type ≠ .tbytes then
      match pickleLoads b with
      | some w => Except.ok w
      | none => Except.error "pickle.UnpicklingError"
    else Except.ok (.vblob b)
  | v => Except.ok v

/-- The hydration loop of `get_instance` (lines 205–214): walk the
model's fields with the row values `row[i]` positionally. -/
def hydrateRowAux : List Field → List Value → Except String (List (String × Value))
  | [], _ => Except.ok []
  | _ :: _, [] => Except.error "IndexError"
  | f :: fs, v :: vs =>
    match hydrateValue f v with
    | Except.ok w =>
      match hydrateRowAux fs vs with
      | Except.ok rest => Except.ok ((f.name, w) :: rest)
      | Except.error e => Except.error e
    | Except.error e => Except.error e

def hydrateRow (model : Model) (row : List Value) : Except String (List (String × Value)) :=
  hydrateRowAux model.fields row

/-- The rows the driver returns for the generated `SELECT`: all rows
satisfying every equality filter, in table order. -/
def matchingRows (model : Model) (rows : List (List Value)) (filters : List (Field × Value)) :
    List (List Value) :=
  rows.filter (rowMatchesAll model filters)

/-- Embedding of `get_instance`: build the `SELECT` text (the driver
rejects an empty `WHERE` clause as a syntax error and unknown filter
columns as errors), fetch all matching rows, return `none` when there
are none, otherwise hydrate the first row. -/
def get_instance (model : Model) (rows : List (List Value)) (filters : List (Field × Value)) :
    Except String (Option Instance) :=
  if filtersClause filters = "" then
    Except.error "sqlite3.OperationalError: syntax error in SELECT with empty WHERE"
  else if !filtersValid model filters then
    Except.error "sqlite3.OperationalError: no such column"
  else if (matchingRows model rows filters).length = 0 ∨
      (matchingRows model rows filters).length < 1 then
    Except.ok none
  else
    match matchingRows model rows filters with
    | [] => Except.ok none
    | row :: _ =>
      match hydrateRow model row with
      | Except.ok d => Except.ok (some { data := d, is_deleted := false })
      | Except.error e => Except.error e

/-- `fields.get(field)` on the supplied field→value dictionary (keyed by
the field object itself). -/
def lookupField (supplied : List (Field × Value)) (f : Field) : Option Value :=
  (supplied.find? fun fv => decide (fv.1 = f)).map Prod.snd

/-- What the driver binds to a column named `name` in an `INSERT`
column list. -/
def lookupByName (supplied : List (Field × Value)) (name : String) : Option Value :=
  (supplied.find? fun fv => decide (fv.1.name = name)).map Prod.snd

/-- The first field marked as the primary key
(`instance._schema.primary_key`). -/
def primaryKeyField (model : Model) : Option Field :=
  model.fields.find? Field.primary_key

/-- An `INTEGER PRIMARY KEY AUTOINCREMENT` column: the store assigns its
value when the insert omits it. -/
def isAutoRowid (f : Field) : Bool :=
  f.primary_key && decide (f.field_type = .tint)

def autoRowidField (model : Model) : Option Field :=
  model.fields.find? isAutoRowid

/-- The primary-key cell of a row. -/
def rowPk (model : Model) (pkName : String) (row : List Value) : Option Value :=
  match columnIndex model pkName with
  | some i => row[i]?
  | none => none

/-- The largest integer primary-key value currently in the table. -/
def maxRowid (model : Model) (pkName : String) (rows : List (List Value)) : Int :=
  rows.foldl
    (fun acc row =>
      match rowPk model pkName row with
      | some (.vint v) => max acc v
      | _ => acc)
    0

/-- The row identity the store assigns to an insert
(`cursor.lastrowid`): a supplied integer primary-key value, or a fresh
identifier. -/
def assignedRowid (model : Model) (rows : List (List Value))
    (supplied : List (Field × Value)) : Int :=
  match autoRowidField model with
  | some pk =>
    match lookupByName supplied pk.name with
    | some (.vint v) => v
    | _ => maxRowid model pk.name rows + 1
  | none => (rows.length : Int) + 1

/-- The row the driver inserts for
`INSERT INTO t (<supplied cols>) VALUES (?…)`: supplied columns take
the bound value, an omitted auto primary key takes the assigned row
identity, any other omitted column takes `NULL` (the generated DDL
declares no column defaults). -/
def insertRowFor (model : Model) (supplied : List (Field × Value)) (rid : Int) :
    List Value :=
  model.fields.map fun f =>
    match lookupByName supplied f.name with
    | some v => v
    | none => if isAutoRowid f then .vint rid else .vnull

/-- Primary-key uniqueness check the store enforces on insert. -/
def pkConflict (model : Model) (rows : List (List Value)) (newRow : List Value) : Bool :=
  match primaryKeyField model with
  | some pk =>
    match columnIndex model pk.name with
    | some i =>
      match newRow[i]? with
      | some v =>
        rows.any fun r =>
          match r[i]? with
          | some w => sqlEq w v
          | none => false
      | none => false
    | none => false
  | none => false

/-- The `instance_data` dictionary `create_instance` builds: per field,
the supplied value (`fields.get(field)`, `None` when absent), except
that every store-generated field takes `cursor.lastrowid`. -/
def createdData (model : Model) (rows : List (List Value))
    (supplied : List (Field × Value)) : List (String × Value) :=
  model.fields.map fun f =>
    (f.name,
      (if f.set_by_database then some (Value.vint (assignedRowid model rows supplied))
       else lookupField supplied f).getD Value.vnull)

/-- Embedding of `create_instance`: send
`INSERT INTO t (cols) VALUES (?…)` (the driver rejects unknown columns,
`NOT NULL` violations and duplicate primary keys), then build the
returned instance from the supplied values, replacing the value of
every store-generated field with `cursor.lastrowid`. -/
def create_instance (model : Model) (rows : List (List Value))
    (supplied : List (Field × Value)) :
    Except String (List (List Value) × Int × Instance) :=
  if !filtersValid model supplied then
    Except.error "sqlite3.OperationalError: table has no column with that name"
  else if model.fields.any fun f =>
      (lookupByName supplied f.name).isNone && !isAutoRowid f && !f.has_default then
    Except.error "sqlite3.IntegrityError: NOT NULL constraint failed"
  else if pkConflict model rows (insertRowFor model supplied (assignedRowid model rows supplied)) then
    Except.error "sqlite3.IntegrityError: UNIQUE constraint failed"
  else
    Except.ok (rows ++ [insertRowFor model supplied (assignedRowid model rows supplied)],
      assignedRowid model rows supplied,
      { data := createdData model rows supplied, is_deleted := false })

/-- Python `setattr` on the instance data: replace the attribute slot
when present, otherwise add it. -/
def setAttrData : List (String × Value) → String → Value → List (String × Value)
  | [], name, value => [(name, value)]
  | nv :: rest, name, value =>
    if nv.1 = name then (name, value) :: rest
    else nv :: setAttrData rest name value

/-- Embedding of `update_instance`: read the schema's primary-key field
and the instance's primary-key value, send
`UPDATE t SET field=? WHERE primary=?` (the named column of every row
whose primary-key column equals that value is set to the new value),
then set the new value on the in-memory instance. -/
def update_instance (model : Model) (inst : Instance) (rows : List (List Value))
    (field : Field) (value : Value) :
    Except String (List (List Value) × Instance) :=
  match primaryKeyField model with
  | none => Except.error "AttributeError: schema has no primary key"
  | some primary =>
    match List.lookup primary.name inst.data with
    | none => Except.error "AttributeError"
    | some id_value =>
      match columnIndex model field.name, columnIndex model primary.name with
      | some i, some j =>
        let rows1 := rows.map fun r =>
          match r[j]? with
          | some w => if sqlEq w id_value then r.set i value else r
          | none => r
        Except.ok (rows1, { inst with data := setAttrData inst.data field.name value })
      | _, _ => Except.error "sqlite3.OperationalError: no such column"

/-- Embedding of `delete_instance`: `DELETE FROM t WHERE primary=?`
removes every row whose primary-key column equals the instance's
primary-key value, then the instance's `_is_deleted` flag is set. -/
def delete_instance (model : Model) (inst : Instance) (rows : List (List Value)) :
    Except String (List (List Value) × Instance) :=
  match primaryKeyField model with
  | none => Except.error "AttributeError: schema has no primary key"
  | some primary =>
    match List.lookup primary.name inst.data with
    | none => Except.error "AttributeError"
    | some id_value =>
      match columnIndex model primary.name with
      | some j =>
        let rows1 := rows.filter fun r =>
          match r[j]? with
          | some w => !sqlEq w id_value
          | none => true
        Except.ok (rows1, { inst with is_deleted := true })
      | none => Except.error "sqlite3.OperationalError: no such column"

/-- Whether a declared field type is directly representable in the
store (has a native SQL column type in `SQL_TYPES`). -/
def directlyRepresentable (t : FieldType) : Bool :=
  (SQL_TYPES t).isSome

/-- Modelled from the spec: the write-side conversion the model layer
(code of this repository that is not under `src/`) applies before
`create`/`update` hand a value to the store — a value for a field whose
declared type is not directly representable is serialized into an
opaque byte-string payload; any other value passes through unchanged. -/
def adaptValue (field : Field) (v : Value) : Value :=
  if directlyRepresentable field.field_type then v else .vblob (pickleDumps v)

/-- Concrete fixture: an integer auto-increment primary key. -/
def idField : Field :=
  { name := "id", field_type := .tint, primary_key := true,
    set_by_database := true, has_default := true }

/-- Concrete fixture: a mandatory text field. -/
def nameField : Field :=
  { name := "name", field_type := .tstr, primary_key := false,
    set_by_database := false, has_default := false }

/-- Concrete fixture: a field of a type the store cannot represent
directly (a list). -/
def tagsField : Field :=
  { name := "tags", field_type := .tother, primary_key := false,
    set_by_database := false, has_default := true }

/-- Concrete fixture: the `Item` model of the specification scenario. -/
def itemModel : Model :=
  { pyName := "Item", alt_name := none, fields := [idField, nameField, tagsField] }

/-- Concrete fixture: serialized payload for the `tags` value. -/
def tagsPayload : List Nat := pickleDumps (.vlist ["x", "y"])

/-- Concrete fixture rows for the `item` table. -/
def itemRow : List Value := [.vint 1, .vtext "a", .vblob tagsPayload]

def itemRowB : List Value := [.vint 2, .vtext "a", .vblob tagsPayload]

/-- Concrete fixture: the hydrated instance for `itemRow`. -/
def itemInst : Instance :=
  { data := [("id", .vint 1), ("name", .vtext "a"), ("tags", .vlist ["x", "y"])],
    is_deleted := false }

theorem decStr_encStr (s : String) (rest : List Nat) :
    decStr (encStr s ++ rest) = some (s, rest) := by
  unfold encStr decStr
  simp only [List.cons_append]
  have hlen : (s.data.map Char.toNat).length = s.data.length := List.length_map _ _
  rw [if_pos]
  · have htake : ((s.data.map Char.toNat) ++ rest).take s.data.length = s.data.map Char.toNat := by
      rw [← hlen, List.take_left]
    have hdrop : ((s.data.map Char.toNat) ++ rest).drop s.data.length = rest := by
      rw [← hlen, List.drop_left]
    rw [htake, hdrop]
    simp only [List.map_map, Option.some.injEq, Prod.mk.injEq, and_true]
    have : s.data.map (Char.ofNat ∘ Char.toNat) = s.data.map id := by
      apply List.map_congr_left
      intro c _
      simp [Char.ofNat_toNat]
    simp only [this, List.map_id]
  · rw [List.length_append, hlen]
    omega

theorem decStrs_enc (xs : List String) (rest : List Nat) :
    decStrs xs.length ((xs.map encStr).flatten ++ rest) = some (xs, rest) := by
  induction xs generalizing rest with
  | nil => simp [decStrs]
  | cons s tail ih =>
    simp only [List.map_cons, List.flatten_cons, List.length_cons, List.append_assoc]
    unfold decStrs
    rw [decStr_encStr]
    simp only [ih]

/-- Round trip of the serializer model: decoding an encoded value
recovers the value. -/
theorem pickleLoads_pickleDumps (v : Value) : pickleLoads (pickleDumps v) = some v := by
  cases v with
  | vint n =>
    simp [pickleDumps, pickleLoads]
  | vtext s =>
    have h := decStr_encStr s []
    simp only [List.append_nil] at h
    simp [pickleDumps, pickleLoads, h]
  | vblob b => simp [pickleDumps, pickleLoads]
  | vnull => simp [pickleDumps, pickleLoads]
  | vlist xs =>
    have h := decStrs_enc xs []
    simp only [List.append_nil] at h
    simp [pickleDumps, pickleLoads, h]

theorem sqlFieldFor_eq_spec (f : Field) : sqlFieldFor f = specColumnDef f := by
  obtain ⟨name, ft, pk, sbd, hd⟩ := f
  cases ft <;> cases pk <;> cases hd <;>
    simp [sqlFieldFor, specColumnDef, SQL_TYPES, specColumnType, String.append_assoc]


theorem colIdx_some (name : String) (fs : List Field) :
    ∀ (i : Nat), colIdx name fs = some i → ∃ f, fs[i]? = some f ∧ f.name = name := by
  induction fs with
  | nil => intro i h; simp [colIdx] at h
  | cons g gs ih =>
    intro i h
    simp only [colIdx] at h
    by_cases hg : g.name = name
    · rw [if_pos hg] at h
      injection h with h
      subst h
      exact ⟨g, by simp, hg⟩
    · rw [if_neg hg] at h
      cases hcg : colIdx name gs with
      | none => rw [hcg] at h; simp at h
      | some j =>
        rw [hcg] at h
        simp only [Option.map_some'] at h
        injection h with h
        subst h
        obtain ⟨f, hf, hfn⟩ := ih j hcg
        exact ⟨f, by simpa using hf, hfn⟩

theorem colIdx_nodup_mem (fs : List Field) (f : Field)
    (hnd : (fs.map Field.name).Nodup) (hmem : f ∈ fs) :
    ∃ i, colIdx f.name fs = some i ∧ fs[i]? = some f := by
  induction fs with
  | nil => cases hmem
  | cons g gs ih =>
    rw [List.map_cons] at hnd
    have hnd2 := List.nodup_cons.mp hnd
    by_cases hg : g.name = f.name
    · have hfg : f = g := by
        cases List.mem_cons.mp hmem with
        | inl h => exact h
        | inr h =>
          exfalso
          have hin : f.name ∈ gs.map Field.name := List.mem_map_of_mem _ h
          rw [← hg] at hin
          exact hnd2.1 hin
      subst hfg
      exact ⟨0, by simp [colIdx, hg], by simp⟩
    · have hmem2 : f ∈ gs := by
        cases List.mem_cons.mp hmem with
        | inl h => exact absurd (congrArg Field.name h.symm) hg
        | inr h => exact h
      obtain ⟨i, hci, hgi⟩ := ih hnd2.2 hmem2
      exact ⟨i + 1, by simp [colIdx, hg, hci], by simpa using hgi⟩

theorem hydrateRowAux_keys (fs : List Field) :
    ∀ (row : List Value) (data : List (String × Value)),
      hydrateRowAux fs row = Except.ok data → data.map Prod.fst = fs.map Field.name := by
  induction fs with
  | nil =>
    intro row data h
    simp only [hydrateRowAux] at h
    injection h with h
    subst h
    rfl
  | cons f fs ih =>
    intro row data h
    cases row with
    | nil => simp [hydrateRowAux] at h
    | cons v vs =>
      cases hv : hydrateValue f v with
      | error e => simp [hydrateRowAux, hv] at h
      | ok w =>
        cases hr : hydrateRowAux fs vs with
        | error e => simp [hydrateRowAux, hv, hr] at h
        | ok rest =>
          simp only [hydrateRowAux, hv, hr] at h
          injection h with h
          subst h
          simp [ih vs rest hr]

theorem hydrateRowAux_ok (fs : List Field) :
    ∀ (row : List Value) (data : List (String × Value)),
      hydrateRowAux fs row = Except.ok data →
      data.length = fs.length ∧
      ∀ (i : Nat) (f : Field), fs[i]? = some f →
        ∃ v w, row[i]? = some v ∧ hydrateValue f v = Except.ok w ∧
          data[i]? = some (f.name, w) := by
  induction fs with
  | nil =>
    intro row data h
    simp only [hydrateRowAux] at h
    injection h with h
    subst h
    constructor
    · rfl
    · intro i f hf
      simp at hf
  | cons f fs ih =>
    intro row data h
    cases row with
    | nil => simp [hydrateRowAux] at h
    | cons v vs =>
      cases hv : hydrateValue f v with
      | error e => simp [hydrateRowAux, hv] at h
      | ok w =>
        cases hr : hydrateRowAux fs vs with
        | error e => simp [hydrateRowAux, hv, hr] at h
        | ok rest =>
          simp only [hydrateRowAux, hv, hr] at h
          injection h with h
          subst h
          obtain ⟨hlen, hspec⟩ := ih vs rest hr
          refine ⟨by simp [hlen], ?_⟩
          intro i g hg
          cases i with
          | zero =>
            have : f = g := by simpa using hg
            subst this
            exact ⟨v, w, by simp, hv, by simp⟩
          | succ n =>
            obtain ⟨v2, w2, h1, h2, h3⟩ := hspec n g (by simpa using hg)
            exact ⟨v2, w2, by simpa using h1, h2, by simpa using h3⟩

theorem hydrateRowAux_set (fs : List Field) :
    ∀ (row : List Value) (data : List (String × Value)) (i : Nat) (f : Field) (value : Value),
      hydrateRowAux fs row = Except.ok data → fs[i]? = some f →
      hydrateValue f value = Except.ok value →
      hydrateRowAux fs (row.set i value) = Except.ok (data.set i (f.name, value)) := by
  induction fs with
  | nil => intro row data i f value h hf _; simp at hf
  | cons g gs ih =>
    intro row data i f value h hf hv
    cases row with
    | nil => simp [hydrateRowAux] at h
    | cons v vs =>
      cases hv1 : hydrateValue g v with
      | error e => simp [hydrateRowAux, hv1] at h
      | ok w =>
        cases hr : hydrateRowAux gs vs with
        | error e => simp [hydrateRowAux, hv1, hr] at h
        | ok rest =>
          simp only [hydrateRowAux, hv1, hr] at h
          injection h with h
          subst h
          cases i with
          | zero =>
            have hgf : g = f := by simpa using hf
            subst hgf
            simp only [List.set_cons_zero]
            simp [hydrateRowAux, hv, hr]
          | succ n =>
            have hf2 : gs[n]? = some f := by simpa using hf
            have hset := ih vs rest n f value hr hf2 hv
            simp only [List.set_cons_succ]
            simp [hydrateRowAux, hv1, hset]

theorem lookup_set_ne (k n : String) (v : Value) (data : List (String × Value)) :
    ∀ (i : Nat) (w : Value), data[i]? = some (k, w) → n ≠ k →
      List.lookup n (data.set i (k, v)) = List.lookup n data := by
  induction data with
  | nil => intro i w h _; simp at h
  | cons p ps ih =>
    intro i w h hn
    cases i with
    | zero =>
      have hp : p = (k, w) := by simpa using h
      subst hp
      have hnk : (n == k) = false := beq_eq_false_iff_ne.mpr hn
      simp [List.lookup, hnk]
    | succ m =>
      have h2 : ps[m]? = some (k, w) := by simpa using h
      cases p with
      | mk p1 p2 =>
        cases hnp : (n == p1) with
        | true => simp [List.lookup, hnp]
        | false =>
          simp only [List.set_cons_succ, List.lookup, hnp]
          exact ih m w h2 hn

theorem lookup_set_self (k : String) (v : Value) (data : List (String × Value)) :
    ∀ (i : Nat) (w : Value), (data.map Prod.fst).Nodup → data[i]? = some (k, w) →
      List.lookup k (data.set i (k, v)) = some v := by
  induction data with
  | nil => intro i w _ h; simp at h
  | cons p ps ih =>
    intro i w hnd h
    rw [List.map_cons] at hnd
    have hnd2 := List.nodup_cons.mp hnd
    cases i with
    | zero =>
      have hp : p = (k, w) := by simpa using h
      subst hp
      simp [List.lookup]
    | succ m =>
      have h2 : ps[m]? = some (k, w) := by simpa using h
      have hmem : (k, w) ∈ ps := List.getElem?_mem h2
      have hkmem : k ∈ ps.map Prod.fst := List.mem_map_of_mem Prod.fst hmem
      have hne : p.1 ≠ k := fun hh => hnd2.1 (hh ▸ hkmem)
      cases p with
      | mk p1 p2 =>
        have hkp : (k == p1) = false :=
          beq_eq_false_iff_ne.mpr fun hh => hne hh.symm
        simp only [List.set_cons_succ, List.lookup, hkp]
        exact ih m w hnd2.2 h2

theorem lookup_map_field (h : Field → Value) (fs : List Field) :
    ∀ (f : Field), (fs.map Field.name).Nodup → f ∈ fs →
      List.lookup f.name (fs.map fun g => (g.name, h g)) = some (h f) := by
  induction fs with
  | nil => intro f _ hmem; cases hmem
  | cons g gs ih =>
    intro f hnd hmem
    rw [List.map_cons] at hnd
    have hnd2 := List.nodup_cons.mp hnd
    by_cases hg : g.name = f.name
    · have hfg : f = g := by
        cases List.mem_cons.mp hmem with
        | inl hh => exact hh
        | inr hh =>
          exfalso
          have hin : f.name ∈ gs.map Field.name := List.mem_map_of_mem _ hh
          rw [← hg] at hin
          exact hnd2.1 hin
      subst hfg
      simp [List.lookup]
    · have hmem2 : f ∈ gs := by
        cases List.mem_cons.mp hmem with
        | inl hh => exact absurd (congrArg Field.name hh.symm) hg
        | inr hh => exact hh
      have hkn : (f.name == g.name) = false :=
        beq_eq_false_iff_ne.mpr fun hh => hg hh.symm
      simp only [List.map_cons, List.lookup, hkn]
      exact ih f hnd2.2 hmem2

theorem lookup_setAttrData (name : String) (value : Value) :
    ∀ (data : List (String × Value)),
      List.lookup name (setAttrData data name value) = some value := by
  intro data
  induction data with
  | nil => simp [setAttrData, List.lookup]
  | cons p ps ih =>
    cases p with
    | mk p1 p2 =>
      by_cases hp : p1 = name
      · subst hp
        simp [setAttrData, List.lookup]
      · have hkn : (name == p1) = false :=
          beq_eq_false_iff_ne.mpr fun hh => hp hh.symm
        simp only [setAttrData, if_neg hp, List.lookup, hkn]
        exact ih

theorem filtersClause_ne_empty (fv : Field × Value) (rest : List (Field × Value)) :
    filtersClause (fv :: rest) ≠ "" := by
  intro h
  have hlen := congrArg String.length h
  have heq2 : ("=?" : String).length = 2 := rfl
  have hemp : ("" : String).length = 0 := rfl
  cases rest with
  | nil =>
    simp only [filtersClause, List.map_cons, List.map_nil, joinSep,
      String.length_append, heq2, hemp] at hlen
    omega
  | cons fv2 rest2 =>
    have hand : (" AND " : String).length = 5 := rfl
    simp only [filtersClause, List.map_cons, joinSep,
      String.length_append, heq2, hemp, hand] at hlen
    omega

theorem rowMatchesAll_single (model : Model) (f : Field) (v : Value) (row : List Value) :
    rowMatchesAll model [(f, v)] row = filterMatches model row f v := by
  simp [rowMatchesAll]

theorem get_instance_eq (model : Model) (rows : List (List Value))
    (filters : List (Field × Value)) (hne : filters ≠ [])
    (hvalid : filtersValid model filters = true) :
    get_instance model rows filters =
      match matchingRows model rows filters with
      | [] => Except.ok none
      | row :: _ =>
        match hydrateRow model row with
        | Except.ok d => Except.ok (some { data := d, is_deleted := false })
        | Except.error e => Except.error e := by
  obtain ⟨fv, rest, rfl⟩ : ∃ fv rest, filters = fv :: rest := by
    cases filters with
    | nil => exact absurd rfl hne
    | cons a l => exact ⟨a, l, rfl⟩
  unfold get_instance
  rw [if_neg (filtersClause_ne_empty fv rest), if_neg (by simp [hvalid])]
  cases hm : matchingRows model rows (fv :: rest) with
  | nil => simp
  | cons r rs =>
    rw [if_neg (by simp)]

theorem colIdx_isSome_of_mem (fs : List Field) (f : Field) (hmem : f ∈ fs) :
    ∃ i, colIdx f.name fs = some i := by
  induction fs with
  | nil => cases hmem
  | cons g gs ih =>
    by_cases hg : g.name = f.name
    · exact ⟨0, by simp [colIdx, hg]⟩
    · have hmem2 : f ∈ gs := by
        cases List.mem_cons.mp hmem with
        | inl hh => exact absurd (congrArg Field.name hh.symm) hg
        | inr hh => exact hh
      obtain ⟨i, hi⟩ := ih hmem2
      exact ⟨i + 1, by simp [colIdx, hg, hi]⟩

/-- Claim C3: for every model, `create_table_for` generates one column
per field descriptor; integer/real/text/binary/timestamp/date map to
INTEGER/REAL/TEXT/BLOB/TIMESTAMP/DATE and every unrecognized type maps
to BLOB; the primary-key column carries PRIMARY KEY, with AUTOINCREMENT
added exactly when that field's type is integer; and NOT NULL is added
exactly when the field has no declared default. -/
theorem claim_C3_create_table_columns (model : Model) :
    create_table_for model =
      CREATE_TABLE (tableName model)
        (String.intercalate ", " (model.fields.map specColumnDef)) := by
  have hfun : sqlFieldFor = specColumnDef := funext sqlFieldFor_eq_spec
  unfold create_table_for
  rw [hfun]

/-- Claim C2, evaluated at the failing input: with memory mode off and
a relative path supplied, `init` passes the path to the driver connect
call unchanged — it is NOT resolved to an absolute path, because the
source tests `if file_name.absolute():` and a `Path` object is always
truthy, leaving the `resolve()` branch dead.  (The memory half of the
claim does hold: the stored file name becomes `None` and the target is
the transient in-memory instance.) -/
theorem claim_C2_relative_path_not_resolved :
    init "/home/user" (some "data/app.db") false =
      Except.ok { file_name := some "data/app.db", memory := false,
                  sql_file_name := "data/app.db" } ∧
    isAbsolutePath "data/app.db" = false ∧
    resolvePath "/home/user" "data/app.db" = "/home/user/data/app.db" ∧
    ("data/app.db" : String) ≠ "/home/user/data/app.db" ∧
    init "/home/user" none true =
      Except.ok { file_name := none, memory := true, sql_file_name := ":memory:" } := by
  refine ⟨rfl, by decide, by decide, by decide, rfl⟩

/-- Claim C8: with memory mode off and no valid file path supplied,
`init` fails fast — the assertion raises before any connection is
opened — instead of silently defaulting to some connection target. -/
theorem claim_C8_no_path_fails_fast (cwd : String) :
    init cwd none false = Except.error "AssertionError" := rfl

/-- Claim C10: with an empty filter map, the SELECT text generated by
`get_instance` has an empty WHERE clause (`WHERE ;`), which is
malformed, so the driver raises and no row is ever returned:
`get_instance` has the unstated precondition that at least one
field→value filter pair is supplied. -/
theorem claim_C10_empty_filters_error (model : Model) (rows : List (List Value)) :
    get_instance model rows [] =
      Except.error "sqlite3.OperationalError: syntax error in SELECT with empty WHERE" ∧
    filtersClause [] = "" ∧
    SELECT_QUERY (tableName model) (selectColumns model) (filtersClause []) =
      "SELECT " ++ selectColumns model ++ " FROM " ++ tableName model ++ "\nWHERE ;" := by
  refine ⟨rfl, rfl, ?_⟩
  have hW : ("\nWHERE " ++ ";" : String) = "\nWHERE ;" := rfl
  show SELECT_QUERY (tableName model) (selectColumns model) "" = _
  unfold SELECT_QUERY
  rw [String.append_empty, String.append_assoc _ "\nWHERE " ";", hW]

/-- Claim C9: for every model, the column order used to build the
SELECT statement equals the field order used to decode the fetched row
during hydration — both equal the model's field declaration order — so
each hydrated field receives the value of its own column. -/
theorem claim_C9_select_order_matches_hydration (model : Model) (row : List Value)
    (data : List (String × Value)) (h : hydrateRow model row = Except.ok data) :
    data.map Prod.fst = selectFieldNames model ∧
    ∀ (i : Nat) (f : Field), model.fields[i]? = some f →
      (selectFieldNames model)[i]? = some f.name ∧
      ∃ v w, row[i]? = some v ∧ hydrateValue f v = Except.ok w ∧
        data[i]? = some (f.name, w) := by
  constructor
  · exact hydrateRowAux_keys model.fields row data h
  · intro i f hf
    refine ⟨?_, (hydrateRowAux_ok model.fields row data h).2 i f hf⟩
    unfold selectFieldNames
    rw [List.getElem?_map Field.name model.fields i, hf, Option.map_some']

/-- Witness for C9 at the concrete `Item` model and row. -/
theorem claim_C9_witness :
    hydrateRow itemModel itemRow =
      Except.ok [("id", Value.vint 1), ("name", Value.vtext "a"),
        ("tags", Value.vlist ["x", "y"])] ∧
    ([("id", Value.vint 1), ("name", Value.vtext "a"),
        ("tags", Value.vlist ["x", "y"])].map Prod.fst = selectFieldNames itemModel ∧
      ∀ (i : Nat) (f : Field), itemModel.fields[i]? = some f →
        (selectFieldNames itemModel)[i]? = some f.name ∧
        ∃ v w, itemRow[i]? = some v ∧ hydrateValue f v = Except.ok w ∧
          ([("id", Value.vint 1), ("name", Value.vtext "a"),
            ("tags", Value.vlist ["x", "y"])])[i]? = some (f.name, w)) :=
  ⟨rfl, claim_C9_select_order_matches_hydration itemModel itemRow _ rfl⟩

/-- Claim C1: for every model and every non-empty (column-valid) filter
map, `get_instance` returns `none` when no row satisfies the
conjunction of equality filters; when one or more rows satisfy them it
returns the first matching row hydrated into an instance — it never
raises an ambiguity error for multiple matches. -/
theorem claim_C1_first_match (model : Model) (rows : List (List Value))
    (filters : List (Field × Value)) (hne : filters ≠ [])
    (hvalid : filtersValid model filters = true) :
    (matchingRows model rows filters = [] →
      get_instance model rows filters = Except.ok none) ∧
    ∀ r rest, matchingRows model rows filters = r :: rest →
      get_instance model rows filters =
        match hydrateRow model r with
        | Except.ok d => Except.ok (some { data := d, is_deleted := false })
        | Except.error e => Except.error e := by
  have heq := get_instance_eq model rows filters hne hvalid
  constructor
  · intro hm
    rw [heq, hm]
  · intro r rest hm
    rw [heq, hm]

/-- Witness for C1 at a concrete ambiguous query: two rows match the
`name` filter and the first is returned hydrated (no error). -/
theorem claim_C1_witness :
    ([((nameField : Field), Value.vtext "a")] ≠ []) ∧
    filtersValid itemModel [(nameField, Value.vtext "a")] = true ∧
    matchingRows itemModel [itemRow, itemRowB] [(nameField, Value.vtext "a")] =
      itemRow :: [itemRowB] ∧
    get_instance itemModel [itemRow, itemRowB] [(nameField, Value.vtext "a")] =
      Except.ok (some { data := [("id", Value.vint 1), ("name", Value.vtext "a"),
        ("tags", Value.vlist ["x", "y"])], is_deleted := false }) := by
  refine ⟨by simp, rfl, rfl, ?_⟩
  have h := (claim_C1_first_match itemModel [itemRow, itemRowB]
    [(nameField, Value.vtext "a")] (by simp) rfl).2 itemRow [itemRowB] rfl
  rw [h]
  rfl

/-- Claim C4: a value written through `create`/`update` for a field
whose declared type is not directly representable in the store is kept
as an opaque serialized payload, and hydration (the conversion step of
`find_one`) deserializes it back to a value equal to the original;
during hydration any byte-string value for a field whose declared type
is not bytes is deserialized, while bytes-typed fields are left
as-is. -/
theorem claim_C4_roundtrip (field : Field) (v : Value)
    (hrep : directlyRepresentable field.field_type = false) :
    hydrateValue field (adaptValue field v) = Except.ok v ∧
    (∀ g : Field, g.field_type = FieldType.tbytes → ∀ b,
      hydrateValue g (Value.vblob b) = Except.ok (Value.vblob b)) ∧
    (∀ g : Field, g.field_type ≠ FieldType.tbytes → ∀ b w, pickleLoads b = some w →
      hydrateValue g (Value.vblob b) = Except.ok w) := by
  refine ⟨?_, ?_, ?_⟩
  · have hbytes : field.field_type ≠ FieldType.tbytes := by
      intro hh
      rw [hh] at hrep
      simp [directlyRepresentable, SQL_TYPES] at hrep
    have hload := pickleLoads_pickleDumps v
    simp [adaptValue, hrep, hydrateValue, hbytes, hload]
  · intro g hg b
    simp [hydrateValue, hg]
  · intro g hg b w hw
    simp [hydrateValue, hg, hw]

/-- Witness for C4 at the concrete opaque `tags` field and list
value. -/
theorem claim_C4_witness :
    directlyRepresentable tagsField.field_type = false ∧
    adaptValue tagsField (Value.vlist ["x", "y"]) = Value.vblob tagsPayload ∧
    hydrateValue tagsField (adaptValue tagsField (Value.vlist ["x", "y"])) =
      Except.ok (Value.vlist ["x", "y"]) :=
  ⟨rfl, rfl, (claim_C4_roundtrip tagsField (Value.vlist ["x", "y"]) rfl).1⟩

/-- Claim C7: for a non-deleted instance with primary-key value k,
`delete_instance` removes the rows whose primary key equals k, sets the
instance's deletion flag, and a subsequent `get_instance` filtering on
the primary key returns `none`. -/
theorem claim_C7_delete_then_find (model : Model) (inst : Instance)
    (rows : List (List Value)) (pk : Field) (vk : Value)
    (hpk : primaryKeyField model = some pk)
    (hinstpk : List.lookup pk.name inst.data = some vk)
    (_hdel : inst.is_deleted = false) :
    ∃ j rows1 inst1,
      columnIndex model pk.name = some j ∧
      delete_instance model inst rows = Except.ok (rows1, inst1) ∧
      inst1.is_deleted = true ∧
      inst1.data = inst.data ∧
      (∀ x ∈ rows, filterMatches model x pk vk = false → x ∈ rows1) ∧
      (∀ x ∈ rows1, x ∈ rows ∧ filterMatches model x pk vk = false) ∧
      get_instance model rows1 [(pk, vk)] = Except.ok none := by
  have hpkmem : pk ∈ model.fields := List.mem_of_find?_eq_some hpk
  obtain ⟨j, hj⟩ := colIdx_isSome_of_mem model.fields pk hpkmem
  have hjc : columnIndex model pk.name = some j := hj
  have hkeep : ∀ x : List Value,
      (match x[j]? with
       | some w => !sqlEq w vk
       | none => true) = !filterMatches model x pk vk := by
    intro x
    unfold filterMatches
    rw [hjc]
    cases hx : x[j]? <;> simp [hx]
  have hdeleq : delete_instance model inst rows =
      Except.ok (rows.filter fun r =>
        match r[j]? with
        | some w => !sqlEq w vk
        | none => true, { inst with is_deleted := true }) := by
    simp only [delete_instance, hpk, hinstpk, hjc]
  refine ⟨j, _, _, hjc, hdeleq, rfl, rfl, ?_, ?_, ?_⟩
  · intro x hx hnm
    refine List.mem_filter.mpr ⟨hx, ?_⟩
    rw [hkeep x, hnm]
    rfl
  · intro x hx
    obtain ⟨h1, h2⟩ := List.mem_filter.mp hx
    refine ⟨h1, ?_⟩
    cases hb : filterMatches model x pk vk with
    | false => rfl
    | true =>
      rw [hkeep x, hb] at h2
      exact absurd h2 (by simp)
  · have hvalidpk : filtersValid model [(pk, vk)] = true := by
      simp [filtersValid, hjc]
    rw [get_instance_eq model _ [(pk, vk)] (by simp) hvalidpk]
    have hmr : matchingRows model
        (rows.filter fun r =>
          match r[j]? with
          | some w => !sqlEq w vk
          | none => true) [(pk, vk)] = [] := by
      unfold matchingRows
      rw [List.filter_eq_nil_iff]
      intro x hx
      obtain ⟨h1, h2⟩ := List.mem_filter.mp hx
      rw [hkeep x] at h2
      rw [rowMatchesAll_single]
      cases hb : filterMatches model x pk vk with
      | false => simp
      | true =>
        rw [hb] at h2
        exact absurd h2 (by simp)
    rw [hmr]

/-- Witness for C7 at the concrete `Item` model: deleting the instance
with primary key 1 from a two-row table. -/
theorem claim_C7_witness :
    primaryKeyField itemModel = some idField ∧
    List.lookup idField.name itemInst.data = some (Value.vint 1) ∧
    itemInst.is_deleted = false ∧
    (∃ j rows1 inst1,
      columnIndex itemModel idField.name = some j ∧
      delete_instance itemModel itemInst [itemRow, itemRowB] =
        Except.ok (rows1, inst1) ∧
      inst1.is_deleted = true ∧
      inst1.data = itemInst.data ∧
      (∀ x ∈ [itemRow, itemRowB],
        filterMatches itemModel x idField (Value.vint 1) = false → x ∈ rows1) ∧
      (∀ x ∈ rows1, x ∈ [itemRow, itemRowB] ∧
        filterMatches itemModel x idField (Value.vint 1) = false) ∧
      get_instance itemModel rows1 [(idField, Value.vint 1)] = Except.ok none) :=
  ⟨rfl, rfl, rfl,
    claim_C7_delete_then_find itemModel itemInst [itemRow, itemRowB] idField
      (Value.vint 1) rfl rfl rfl⟩

/-- Claim C6: `create_instance` inserts exactly one row built from the
supplied field→value map; on the returned instance every field marked
store-generated holds the store-assigned row identity
(`cursor.lastrowid`) rather than any caller-supplied value, while every
other supplied field holds the caller-supplied value. -/
theorem claim_C6_create (model : Model) (rows : List (List Value))
    (supplied : List (Field × Value))
    (hnd : (model.fields.map Field.name).Nodup)
    (hvalid : filtersValid model supplied = true)
    (hnn : (model.fields.any fun f =>
      (lookupByName supplied f.name).isNone && !isAutoRowid f && !f.has_default) = false)
    (hpkuniq : pkConflict model rows
      (insertRowFor model supplied (assignedRowid model rows supplied)) = false) :
    ∃ inst : Instance,
      create_instance model rows supplied =
        Except.ok (rows ++ [insertRowFor model supplied (assignedRowid model rows supplied)],
          assignedRowid model rows supplied, inst) ∧
      inst.is_deleted = false ∧
      (∀ f ∈ model.fields, f.set_by_database = true →
        List.lookup f.name inst.data =
          some (Value.vint (assignedRowid model rows supplied))) ∧
      (∀ f ∈ model.fields, f.set_by_database = false → ∀ v,
        lookupField supplied f = some v → List.lookup f.name inst.data = some v) ∧
      (∀ f ∈ model.fields, ∀ v, lookupByName supplied f.name = some v →
        ∃ i, columnIndex model f.name = some i ∧
          (insertRowFor model supplied (assignedRowid model rows supplied))[i]? = some v) := by
  refine ⟨{ data := createdData model rows supplied, is_deleted := false },
    ?_, rfl, ?_, ?_, ?_⟩
  · unfold create_instance
    rw [if_neg (by simp [hvalid]), if_neg (by simp [hnn]), if_neg (by simp [hpkuniq])]
  · intro f hf hsbd
    show List.lookup f.name (createdData model rows supplied) = _
    unfold createdData
    rw [lookup_map_field
      (fun f2 => (if f2.set_by_database then
          some (Value.vint (assignedRowid model rows supplied))
        else lookupField supplied f2).getD Value.vnull) model.fields f hnd hf]
    rw [hsbd]
    simp
  · intro f hf hsbd v hv
    show List.lookup f.name (createdData model rows supplied) = _
    unfold createdData
    rw [lookup_map_field
      (fun f2 => (if f2.set_by_database then
          some (Value.vint (assignedRowid model rows supplied))
        else lookupField supplied f2).getD Value.vnull) model.fields f hnd hf]
    rw [hsbd, hv]
    simp
  · intro f hf v hv
    obtain ⟨i, hi, hfi⟩ := colIdx_nodup_mem model.fields f hnd hf
    refine ⟨i, hi, ?_⟩
    unfold insertRowFor
    rw [List.getElem?_map _ model.fields i, hfi, Option.map_some', hv]

/-- Witness for C6: creating an `Item` with a supplied name and tags in
an empty table; the auto primary key takes the assigned row id 1. -/
theorem claim_C6_witness :
    ((itemModel.fields.map Field.name).Nodup) ∧
    filtersValid itemModel [(nameField, Value.vtext "a"), (tagsField, Value.vblob tagsPayload)] = true ∧
    assignedRowid itemModel []
      [(nameField, Value.vtext "a"), (tagsField, Value.vblob tagsPayload)] = 1 ∧
    insertRowFor itemModel
      [(nameField, Value.vtext "a"), (tagsField, Value.vblob tagsPayload)] 1 = itemRow ∧
    (∃ inst : Instance,
      create_instance itemModel []
          [(nameField, Value.vtext "a"), (tagsField, Value.vblob tagsPayload)] =
        Except.ok ([] ++ [insertRowFor itemModel
            [(nameField, Value.vtext "a"), (tagsField, Value.vblob tagsPayload)]
            (assignedRowid itemModel []
              [(nameField, Value.vtext "a"), (tagsField, Value.vblob tagsPayload)])],
          assignedRowid itemModel []
            [(nameField, Value.vtext "a"), (tagsField, Value.vblob tagsPayload)], inst) ∧
      inst.is_deleted = false ∧
      (∀ f ∈ itemModel.fields, f.set_by_database = true →
        List.lookup f.name inst.data =
          some (Value.vint (assignedRowid itemModel []
            [(nameField, Value.vtext "a"), (tagsField, Value.vblob tagsPayload)]))) ∧
      (∀ f ∈ itemModel.fields, f.set_by_database = false → ∀ v,
        lookupField [(nameField, Value.vtext "a"), (tagsField, Value.vblob tagsPayload)] f =
          some v → List.lookup f.name inst.data = some v) ∧
      (∀ f ∈ itemModel.fields, ∀ v,
        lookupByName [(nameField, Value.vtext "a"), (tagsField, Value.vblob tagsPayload)]
          f.name = some v →
        ∃ i, columnIndex itemModel f.name = some i ∧
          (insertRowFor itemModel
            [(nameField, Value.vtext "a"), (tagsField, Value.vblob tagsPayload)]
            (assignedRowid itemModel []
              [(nameField, Value.vtext "a"), (tagsField, Value.vblob tagsPayload)]))[i]? =
            some v)) :=
  ⟨by decide, rfl, rfl, rfl,
    claim_C6_create itemModel []
      [(nameField, Value.vtext "a"), (tagsField, Value.vblob tagsPayload)]
      (by decide) rfl rfl rfl⟩

/-- Claim C5: for a non-deleted instance with primary-key value k,
`update_instance` modifies exactly the one named column of the row
whose primary key equals k (all other rows and columns unchanged) and
sets the new value on the in-memory instance; a subsequent
`get_instance` on the primary key returns the new value for that field
and the previous, unchanged values for every other field. -/
theorem claim_C5_update_then_find (model : Model) (inst : Instance)
    (rows : List (List Value)) (field pk : Field) (vk value : Value)
    (r : List Value) (data0 : List (String × Value))
    (hpk : primaryKeyField model = some pk)
    (hnd : (model.fields.map Field.name).Nodup)
    (hfield : field ∈ model.fields)
    (hne : field.name ≠ pk.name)
    (hinstpk : List.lookup pk.name inst.data = some vk)
    (_hdel : inst.is_deleted = false)
    (hone : matchingRows model rows [(pk, vk)] = [r])
    (hhyd : hydrateRow model r = Except.ok data0)
    (hval : hydrateValue field value = Except.ok value) :
    ∃ i rows1 inst1,
      columnIndex model field.name = some i ∧
      update_instance model inst rows field value = Except.ok (rows1, inst1) ∧
      List.lookup field.name inst1.data = some value ∧
      rows1.length = rows.length ∧
      (∀ (jdx : Nat) (x : List Value), rows[jdx]? = some x →
        rows1[jdx]? =
          some (if rowMatchesAll model [(pk, vk)] x then x.set i value else x)) ∧
      get_instance model rows [(pk, vk)] =
        Except.ok (some { data := data0, is_deleted := false }) ∧
      get_instance model rows1 [(pk, vk)] =
        Except.ok (some { data := (data0.set i (field.name, value)), is_deleted := false }) ∧
      List.lookup field.name (data0.set i (field.name, value)) = some value ∧
      ∀ n, n ≠ field.name →
        List.lookup n (data0.set i (field.name, value)) = List.lookup n data0 := by
  obtain ⟨i, hi, hfi⟩ := colIdx_nodup_mem model.fields field hnd hfield
  have hic : columnIndex model field.name = some i := hi
  have hpkmem : pk ∈ model.fields := List.mem_of_find?_eq_some hpk
  obtain ⟨j, hj, hfj⟩ := colIdx_nodup_mem model.fields pk hnd hpkmem
  have hjc : columnIndex model pk.name = some j := hj
  have hij : i ≠ j := by
    intro hh
    rw [hh, hfj] at hfi
    injection hfi with hfi
    exact hne (congrArg Field.name hfi).symm
  have hvalidpk : filtersValid model [(pk, vk)] = true := by
    simp [filtersValid, hjc]
  have hupd : update_instance model inst rows field value =
      Except.ok (rows.map fun r2 =>
        match r2[j]? with
        | some w => if sqlEq w vk then r2.set i value else r2
        | none => r2,
        { inst with data := setAttrData inst.data field.name value }) := by
    simp only [update_instance, hpk, hinstpk, hic, hjc]
  have hmatch : ∀ x : List Value,
      rowMatchesAll model [(pk, vk)] x =
        match x[j]? with
        | some w => sqlEq w vk
        | none => false := by
    intro x
    rw [rowMatchesAll_single]
    unfold filterMatches
    rw [hjc]
  have hgx : ∀ x : List Value,
      (match x[j]? with
       | some w => if sqlEq w vk then x.set i value else x
       | none => x) =
      if rowMatchesAll model [(pk, vk)] x then x.set i value else x := by
    intro x
    rw [hmatch x]
    cases hx : x[j]? with
    | none => simp
    | some w => cases hw : sqlEq w vk <;> simp [hw]
  have hqset : ∀ x : List Value,
      rowMatchesAll model [(pk, vk)] (x.set i value) =
        rowMatchesAll model [(pk, vk)] x := by
    intro x
    rw [hmatch, hmatch, List.getElem?_set_ne hij]
  have hrmatch : rowMatchesAll model [(pk, vk)] r = true := by
    have : r ∈ matchingRows model rows [(pk, vk)] := by
      rw [hone]
      exact List.mem_singleton.mpr rfl
    exact List.of_mem_filter this
  have hfilter1 : matchingRows model
      (rows.map fun r2 =>
        match r2[j]? with
        | some w => if sqlEq w vk then r2.set i value else r2
        | none => r2) [(pk, vk)] = [r.set i value] := by
    unfold matchingRows
    rw [List.filter_map]
    have hcomp : (rowMatchesAll model [(pk, vk)] ∘ fun r2 =>
        match r2[j]? with
        | some w => if sqlEq w vk then r2.set i value else r2
        | none => r2) = rowMatchesAll model [(pk, vk)] := by
      funext x
      show rowMatchesAll model [(pk, vk)] _ = _
      rw [show (fun r2 : List Value =>
          match r2[j]? with
          | some w => if sqlEq w vk then r2.set i value else r2
          | none => r2) x =
          if rowMatchesAll model [(pk, vk)] x then x.set i value else x from hgx x]
      cases hq : rowMatchesAll model [(pk, vk)] x with
      | false => rw [if_neg (by simp [hq])]; exact hq
      | true => rw [if_pos (by simp [hq]), hqset x]; exact hq
    rw [hcomp]
    have : List.filter (rowMatchesAll model [(pk, vk)]) rows = [r] := hone
    rw [this, List.map_cons, List.map_nil, hgx r, if_pos (by simp [hrmatch])]
  have hbefore : get_instance model rows [(pk, vk)] =
      Except.ok (some { data := data0, is_deleted := false }) := by
    rw [get_instance_eq model rows [(pk, vk)] (by simp) hvalidpk, hone]
    simp only [hhyd]
  have hset := hydrateRowAux_set model.fields r data0 i field value hhyd hfi hval
  have hafter : get_instance model
      (rows.map fun r2 =>
        match r2[j]? with
        | some w => if sqlEq w vk then r2.set i value else r2
        | none => r2) [(pk, vk)] =
      Except.ok (some { data := (data0.set i (field.name, value)), is_deleted := false }) := by
    rw [get_instance_eq model _ [(pk, vk)] (by simp) hvalidpk, hfilter1]
    have hset2 : hydrateRow model (r.set i value) =
        Except.ok (data0.set i (field.name, value)) := hset
    simp only [hset2]
  have hkeys : data0.map Prod.fst = model.fields.map Field.name :=
    hydrateRowAux_keys model.fields r data0 hhyd
  have hnd0 : (data0.map Prod.fst).Nodup := by
    rw [hkeys]
    exact hnd
  obtain ⟨hlen0, hspec0⟩ := hydrateRowAux_ok model.fields r data0 hhyd
  obtain ⟨v0, w0, hv0, hw0, hd0⟩ := hspec0 i field hfi
  refine ⟨i, _, _, hic, hupd, ?_, ?_, ?_, hbefore, hafter, ?_, ?_⟩
  · exact lookup_setAttrData field.name value inst.data
  · exact List.length_map rows _
  · intro jdx x hx
    rw [List.getElem?_map _ rows jdx, hx, Option.map_some']
    rw [hgx x]
  · exact lookup_set_self field.name value data0 i w0 hnd0 hd0
  · exact fun n hn => lookup_set_ne field.name n value data0 i w0 hd0 hn

/-- Witness for C5: updating the `name` field of the instance with
primary key 1 in a two-row `item` table. -/
theorem claim_C5_witness :
    primaryKeyField itemModel = some idField ∧
    (itemModel.fields.map Field.name).Nodup ∧
    nameField ∈ itemModel.fields ∧
    nameField.name ≠ idField.name ∧
    List.lookup idField.name itemInst.data = some (Value.vint 1) ∧
    itemInst.is_deleted = false ∧
    matchingRows itemModel [itemRow, itemRowB] [(idField, Value.vint 1)] = [itemRow] ∧
    hydrateRow itemModel itemRow =
      Except.ok [("id", Value.vint 1), ("name", Value.vtext "a"),
        ("tags", Value.vlist ["x", "y"])] ∧
    hydrateValue nameField (Value.vtext "b") = Except.ok (Value.vtext "b") ∧
    (∃ i rows1 inst1,
      columnIndex itemModel nameField.name = some i ∧
      update_instance itemModel itemInst [itemRow, itemRowB] nameField
        (Value.vtext "b") = Except.ok (rows1, inst1) ∧
      List.lookup nameField.name inst1.data = some (Value.vtext "b") ∧
      rows1.length = [itemRow, itemRowB].length ∧
      (∀ (jdx : Nat) (x : List Value), [itemRow, itemRowB][jdx]? = some x →
        rows1[jdx]? =
          some (if rowMatchesAll itemModel [(idField, Value.vint 1)] x then
            x.set i (Value.vtext "b") else x)) ∧
      get_instance itemModel [itemRow, itemRowB] [(idField, Value.vint 1)] =
        Except.ok (some { data := [("id", Value.vint 1), ("name", Value.vtext "a"),
          ("tags", Value.vlist ["x", "y"])], is_deleted := false }) ∧
      get_instance itemModel rows1 [(idField, Value.vint 1)] =
        Except.ok (some
          { data := ([("id", Value.vint 1), ("name", Value.vtext "a"),
              ("tags", Value.vlist ["x", "y"])].set i (nameField.name,
                Value.vtext "b")), is_deleted := false }) ∧
      List.lookup nameField.name
        ([("id", Value.vint 1), ("name", Value.vtext "a"),
          ("tags", Value.vlist ["x", "y"])].set i (nameField.name, Value.vtext "b")) =
        some (Value.vtext "b") ∧
      ∀ n, n ≠ nameField.name →
        List.lookup n ([("id", Value.vint 1), ("name", Value.vtext "a"),
          ("tags", Value.vlist ["x", "y"])].set i (nameField.name, Value.vtext "b")) =
        List.lookup n [("id", Value.vint 1), ("name", Value.vtext "a"),
          ("tags", Value.vlist ["x", "y"])]) :=
  ⟨rfl, by decide, by decide, by decide, rfl, rfl, rfl, rfl, rfl,
    claim_C5_update_then_find itemModel itemInst [itemRow, itemRowB] nameField
      idField (Value.vint 1) (Value.vtext "b") itemRow
      [("id", Value.vint 1), ("name", Value.vtext "a"), ("tags", Value.vlist ["x", "y"])]
      rfl (by decide) (by decide) (by decide) rfl rfl rfl rfl rfl⟩

end Mustang
